import Mathlib

/-
Shallow embedding of the audio-audit pipeline from audit_processing.py and of the
batch (ZIP) walk from main.py.

Modelling conventions:
- File-system paths are lists of components, as produced by os.path.join.
- The file system is a list of existing file paths inside a state record that also
  carries the uuid4 draw counter and an event trace (directory creation/removal,
  file creation/removal, LLM-adapter invocations, and top-level audit invocations).
  os.remove and directory removal are modelled as always succeeding.
- Externally supplied capabilities (ffmpeg, torchaudio.load/save, the denoise and
  enhance models, the Whisper transcription model, ollama.generate, json.loads and
  pydantic validation) are oracle fields of an environment record; each may return
  a value or raise an exception, so theorems quantify over every behaviour of the
  black-box capabilities.
- Python exceptions are an inductive type; json.JSONDecodeError is a subclass of
  ValueError in Python, and the handler match of the orchestrator respects that.
- Waveform tensors are abstract handles (Nat); the silent-output test
  torch.max(torch.abs(w)) < 1e-5 is modelled by the almostSilent oracle.
- Python str.strip / str.lower / slicing are modelled over the character list
  (pyStrip, pyLower, pySlice); str.strip strips the ASCII whitespace recognised by
  Char.isWhitespace.
- ollama is imported unconditionally at module top (line 4), so inside a loaded
  module the "ollama is None" raise in analyze_text is unreachable and analyze_text
  is a total function: its try/except converts every failure into a fallback dict.
-/

namespace Audit

/-- Path = list of components (os.path.join output). -/
abbrev FPath := List String

/-- Python str.strip over the character list. -/
def pyStrip (s : String) : String :=
  ⟨((s.data.dropWhile Char.isWhitespace).reverse.dropWhile Char.isWhitespace).reverse⟩

/-- Python str.lower over the character list. -/
def pyLower (s : String) : String := ⟨s.data.map Char.toLower⟩

/-- Python s[:n] slicing (counts code points). -/
def pySlice (s : String) (n : Nat) : String := ⟨s.data.take n⟩

/-- Substring containment test (Python "x in s" for strings). -/
def hasInfixAux (needle : List Char) (hay : List Char) : Bool :=
  match hay with
  | [] => needle.isEmpty
  | _ :: rest => needle.isPrefixOf hay || hasInfixAux needle rest

/-- strContains hay needle = true iff needle occurs in hay. -/
def strContains (hay needle : String) : Bool := hasInfixAux needle.data hay.data

/-- os.path.splitext on a base name: splits at the last dot, provided a non-dot
character precedes it (CPython posixpath.splitext semantics). -/
def splitext (s : String) : String × String :=
  match (s.data.reverse.findIdx? (fun c => c = '.')) with
  | none => (s, "")
  | some kRev =>
    let i := s.data.length - 1 - kRev
    if (s.data.take i).any (fun c => c ≠ '.') then
      (⟨s.data.take i⟩, ⟨s.data.drop i⟩)
    else (s, "")

/-- os.path.basename: the last path component. -/
def basename (p : FPath) : String := p.getLastD ("")

/-- Render a path for use inside error message strings. -/
def pathStr (p : FPath) : String := String.intercalate ("/") p

/-- Python exception categories raised/caught in audit_processing.py.
jsonDecode models json.JSONDecodeError, a ValueError subclass. calledProcess
carries subprocess.CalledProcessError.stderr (None or captured bytes, decoded)
and str(e). other covers every remaining Exception subclass (TypeError etc.). -/
inductive PyExc where
  | fileNotFound (msg : String)
  | valueError (msg : String)
  | jsonDecode (msg : String)
  | calledProcess (stderrOut : Option String) (msg : String)
  | importError (msg : String)
  | other (msg : String)
deriving DecidableEq

/-- str(e) for a modelled exception. -/
def excStr : PyExc → String
  | .fileNotFound m => m
  | .valueError m => m
  | .jsonDecode m => m
  | .calledProcess _ m => m
  | .importError m => m
  | .other m => m

/-- Python values that cross the JSON / dict boundary (json.loads results,
ollama.generate responses, and the audit-record dicts). -/
inductive PyVal where
  | str (s : String)
  | num (n : Int)
  | bool (b : Bool)
  | none
  | list (xs : List PyVal)
  | dict (kvs : List (String × PyVal))

/-- First-occurrence key lookup in the entry list of a dict. -/
def lookupKey : List (String × PyVal) → String → Option PyVal
  | [], _ => Option.none
  | (k1, v) :: rest, k => if k1 = k then some v else lookupKey rest k

/-- d[k] = x on a dict entry list: replace the first occurrence or append. -/
def setKey : List (String × PyVal) → String → PyVal → List (String × PyVal)
  | [], k, x => [(k, x)]
  | (k1, v) :: rest, k, x =>
    if k1 = k then (k, x) :: rest else (k1, v) :: setKey rest k x

/-- d.get(k) on a PyVal that is a dict; none otherwise. -/
def dictGet (v : PyVal) (k : String) : Option PyVal :=
  match v with
  | .dict kvs => lookupKey kvs k
  | _ => Option.none

/-- v[k] = x for a string key: succeeds on dicts, raises TypeError otherwise
(exactly what analysis["audio_file"] = ... does in perform_full_audio_audit). -/
def dictSet (v : PyVal) (k : String) (x : PyVal) : Except PyExc PyVal :=
  match v with
  | .dict kvs => .ok (.dict (setKey kvs k x))
  | .list _ => .error (.other ("TypeError: list indices must be integers or slices, not str"))
  | .str _ => .error (.other ("TypeError: str object does not support item assignment"))
  | _ => .error (.other ("TypeError: object does not support item assignment"))

/-- Python "k in v" for a string k: key test on dicts, substring test on strings,
elementwise == on lists (a str equals no non-str), TypeError otherwise.
TypeError message texts are abbreviated (no claim depends on them). -/
def pyContains (v : PyVal) (k : String) : Except PyExc Bool :=
  match v with
  | .dict kvs => .ok (kvs.any (fun kv => kv.1 = k))
  | .str s => .ok (strContains s k)
  | .list xs => .ok (xs.any (fun x => match x with | .str s => s = k | _ => false))
  | _ => .error (.other ("TypeError: argument is not iterable"))

/-- Python v[k] for a string key k: dict lookup (KeyError if absent), TypeError
on strings/lists/other values. -/
def pyIndexStr (v : PyVal) (k : String) : Except PyExc PyVal :=
  match v with
  | .dict kvs =>
    match lookupKey kvs k with
    | some x => .ok x
    | Option.none => .error (.other ("KeyError: " ++ k))
  | .str _ => .error (.other ("TypeError: string indices must be integers"))
  | .list _ => .error (.other ("TypeError: list indices must be integers or slices, not str"))
  | _ => .error (.other ("TypeError: object is not subscriptable"))

/-- One recognized segment from the transcription capability. -/
structure Segment where
  text : String

/-- Trace events: directory creation/removal, per-file creation/removal, the
makedirs call, one event per LLM-adapter call, and one per top-level audit
invocation (instrumentation marking that perform_full_audio_audit was entered). -/
inductive Ev where
  | mkdir (d : FPath)
  | rmtree (d : FPath)
  | mkdirp (d : FPath)
  | create (p : FPath)
  | remove (p : FPath)
  | llmCall
  | auditCall (p : FPath)
deriving DecidableEq

/-- Mutable world state threaded through the pipeline: existing files, the uuid
draw counter, and the event trace. -/
structure St where
  files : List FPath
  ctr : Nat
  trace : List Ev
deriving DecidableEq

/-- Append an event to the trace. -/
def logEv (st : St) (e : Ev) : St := { st with trace := st.trace ++ [e] }

/-- os.path.exists. -/
def fileExists (st : St) (p : FPath) : Bool := st.files.contains p

/-- A stage writes file p (ffmpeg output, torchaudio.save): p now exists. -/
def createFile (st : St) (p : FPath) : St :=
  { st with files := if st.files.contains p then st.files else p :: st.files,
            trace := st.trace ++ [Ev.create p] }

/-- os.remove p (modelled as always succeeding; the code logs and swallows
OSError from cleanup removals). -/
def removeFile (st : St) (p : FPath) : St :=
  { st with files := st.files.filter (fun q => !(q == p)),
            trace := st.trace ++ [Ev.remove p] }

/-- Result of the ffmpeg subprocess.run(..., check=True) call: success writes the
output file; non-zero exit raises CalledProcessError carrying captured stderr
(possibly None/empty) and str(e), and may leave a half-written output file. -/
inductive FfmpegRes where
  | ok
  | fail (stderrOut : Option String) (msg : String) (leftover : Bool)

/-- Result of torchaudio.save: success writes the file; failure raises and may
leave a half-written file. -/
inductive SaveRes where
  | ok
  | fail (e : PyExc) (leftover : Bool)

/-- Behaviour of one ollama.generate call: raise any exception (str(e) recorded)
or return some Python object. -/
inductive OllamaRes where
  | raises (msg : String)
  | returns (v : PyVal)

/-- Capability environment: the process-wide guard state plus one oracle per
externally supplied black-box capability. heavyOk models
_heavy_libs_successfully_imported together with the torch / torchaudio /
denoise_func / enhance_func / WhisperModel globals, which the import block
assigns all-or-nothing; whisperInstance models WHISPER_MODEL_INSTANCE ≠ None.
The fixed configuration of the enhance call (nfe=64, solver="midpoint", lambd=0.1,
tau=0.5) is a policy constant folded into the enhance_func oracle. -/
structure Env where
  heavyOk : Bool
  whisperInstance : Bool
  uuids : Nat → String
  ffmpeg : FPath → FPath → FfmpegRes
  loadAudio : FPath → Except PyExc (Nat × Nat)
  meanMono : Nat → Nat
  denoise_func : Nat → Nat → Except PyExc (Nat × Nat)
  enhance_func : Nat → Nat → Except PyExc (Nat × Nat)
  almostSilent : Nat → Bool
  saveAudio : FPath → Nat → Nat → SaveRes
  whisperTranscribe : FPath → Except PyExc (List Segment)
  ollamaGen : String → String → OllamaRes
  jsonLoads : String → Except String PyVal
  pydanticValidate : PyVal → Except String PyVal

/-- audit_processing.py line 16. -/
def OLLAMA_MODEL_NAME : String := "deepseek-r1:14b"

/-- The fixed instructional prompt of analyze_text (lines 155-170), with the
transcript embedded verbatim; literal braces of the JSON example are escaped. -/
def promptFor (text : String) : String :=
  "\n你是一个客服录音审核助手。分析以下中文客服对话文本，可能包含转录错误或不完整内容。完成以下任务：\n1. 情感分析：判断对话的情感倾向（正面、负面或中性）。若文本不完整，基于上下文推断。\n2. 合规性检查：检测是否存在不当用语（如“辱骂”“威胁”）或违规行为（如“违反政策”）。\n3. 提供简短的分析摘要，说明情感和合规性结论。\n\n对话文本：\n"
  ++ text ++
  "\n\n输出格式（JSON）：\n\x7b\n    \"sentiment\": \"正面/负面/中性\",\n    \"compliance_issues\": [\"问题1\", \"问题2\", ...] 或 [],\n    \"summary\": \"分析摘要\"\n\x7d\n"

/-- Fallback of analyze_text when the ollama.generate call raises (lines 186-190). -/
def ollamaFailFallback (m : String) : PyVal :=
  .dict [("sentiment", .str ("未知")),
         ("compliance_issues", .list [.str ("Ollama request failed: " ++ m)]),
         ("summary", .str ("LLM分析请求失败。"))]

/-- Fallback when the response lacks a string "response" field (lines 173-177);
note the summary embeds the first 100 characters of the INPUT transcript. -/
def formatFallback (text : String) : PyVal :=
  .dict [("sentiment", .str ("未知")),
         ("compliance_issues", .list [.str ("LLM response format error")]),
         ("summary", .str ("Ollama returned an unexpected response structure: " ++ pySlice text 100 ++ "..."))]

/-- Fallback when json.loads fails (lines 180-185): em is str(e), raw the
100-character prefix of the raw response text. -/
def jsonFallback (em raw : String) : PyVal :=
  .dict [("sentiment", .str ("未知")),
         ("compliance_issues", .list [.str ("JSON parsing error: " ++ em)]),
         ("summary", .str ("无法解析LLM输出。Raw: " ++ raw ++ "..."))]

/-- analyze_text (lines 148-190). The one raise ("ollama is None") is unreachable
in a loaded module, so the function always returns a value; the whole ollama
interaction sits in try/except json.JSONDecodeError/except Exception. Logs one
llmCall trace event per invocation. -/
def analyze_text (env : Env) (st : St) (text : String) : PyVal × St :=
  let st1 := logEv st Ev.llmCall
  match env.ollamaGen OLLAMA_MODEL_NAME (promptFor text) with
  | .raises m => (ollamaFailFallback m, st1)
  | .returns response =>
    match pyContains response ("response") with
    | .error e => (ollamaFailFallback (excStr e), st1)
    | .ok false => (formatFallback text, st1)
    | .ok true =>
      match pyIndexStr response ("response") with
      | .error e => (ollamaFailFallback (excStr e), st1)
      | .ok rv =>
        match rv with
        | .str s =>
          match env.jsonLoads s with
          | .ok v => (v, st1)
          | .error em => (jsonFallback em (pySlice s 100), st1)
        | _ => (formatFallback text, st1)

/-- Stage after format conversion in preprocess_audio (lines 94-106): load,
mono-mix, denoise, enhance, silent-output check, save of the enhanced artifact. -/
def afterConvert (env : Env) (st : St) (current_audio_path output_enhanced_path : FPath) :
    Except PyExc FPath × St :=
  match env.loadAudio current_audio_path with
  | .error e => (.error e, st)
  | .ok (dwav0, sr) =>
    match env.denoise_func (env.meanMono dwav0) sr with
    | .error e => (.error e, st)
    | .ok (wav_denoised, sr_denoised) =>
      match env.enhance_func wav_denoised sr_denoised with
      | .error e => (.error e, st)
      | .ok (wav_enhanced, sr_enhanced) =>
        if env.almostSilent wav_enhanced then
          (.error (.valueError ("Enhanced audio is almost silent, processing likely failed.")), st)
        else
          match env.saveAudio output_enhanced_path wav_enhanced sr_enhanced with
          | .ok => (.ok output_enhanced_path, createFile st output_enhanced_path)
          | .fail e leftover =>
            (.error e, if leftover then createFile st output_enhanced_path else st)

/-- The ffmpeg conversion branch of preprocess_audio (lines 86-92). -/
def convertThen (env : Env) (st : St) (input_audio_path temp_wav_path output_enhanced_path : FPath) :
    (Except PyExc FPath × St) × Option FPath :=
  match env.ffmpeg input_audio_path temp_wav_path with
  | .ok =>
    (afterConvert env (createFile st temp_wav_path) temp_wav_path output_enhanced_path,
     some temp_wav_path)
  | .fail stderrOut m leftover =>
    ((.error (.calledProcess stderrOut m), if leftover then createFile st temp_wav_path else st),
     some temp_wav_path)

/-- The try block of preprocess_audio (lines 83-106); the second component is the
temp_wav_file variable consumed by the finally block. The except
CalledProcessError handler (lines 107-109) only prints and re-raises. -/
def preprocessTry (env : Env) (st : St) (input_audio_path output_dir : FPath)
    (base ext : String) (output_enhanced_path : FPath) :
    (Except PyExc FPath × St) × Option FPath :=
  if pyLower ext ≠ ".wav" then
    convertThen env ({ st with ctr := st.ctr + 1 }) input_audio_path
      (output_dir ++ [base ++ "_temp_conversion_" ++ pySlice (env.uuids st.ctr) 8 ++ ".wav"])
      output_enhanced_path
  else
    (afterConvert env st input_audio_path output_enhanced_path, Option.none)

/-- The finally block of preprocess_audio (lines 110-115): remove the temporary
conversion file if it was assigned and still exists. -/
def preprocessFinally : (Except PyExc FPath × St) × Option FPath → Except PyExc FPath × St
  | ((r, st), some p) => (r, if fileExists st p then removeFile st p else st)
  | ((r, st), Option.none) => (r, st)

/-- preprocess_audio after its two guard checks (lines 77-115): makedirs, draw the
uuid for the enhanced artifact name, run the try block, then the finally block. -/
def preprocessMain (env : Env) (st : St) (input_audio_path output_dir : FPath) :
    Except PyExc FPath × St :=
  preprocessFinally
    (preprocessTry env ({ st with ctr := st.ctr + 1 }) input_audio_path output_dir
      (splitext (basename input_audio_path)).1
      (splitext (basename input_audio_path)).2
      (output_dir ++ [(splitext (basename input_audio_path)).1 ++ "_enhanced_"
        ++ pySlice (env.uuids st.ctr) 8 ++ ".wav"]))

/-- preprocess_audio (lines 66-115): capability guard, input existence check,
then the conversion/enhancement chain with scoped cleanup of the conversion temp. -/
def preprocess_audio (env : Env) (st : St) (input_audio_path output_dir : FPath) :
    Except PyExc FPath × St :=
  if !env.heavyOk then
    (.error (.importError ("Core audio processing libraries (torch, torchaudio, resemble_enhance) are not available for preprocess_audio.")), st)
  else if !(fileExists st input_audio_path) then
    (.error (.fileNotFound ("Input file " ++ pathStr input_audio_path ++ " does not exist.")), st)
  else
    preprocessMain env (logEv st (Ev.mkdirp output_dir)) input_audio_path output_dir

/-- The finally block of transcribe_audio (lines 140-145): the enhanced
intermediate artifact is removed if it exists, on success and failure alike. -/
def transcribeFin (st : St) (enhanced : FPath) (r : Except PyExc String) :
    Except PyExc String × St :=
  (r, if fileExists st enhanced then removeFile st enhanced else st)

/-- transcribe_audio (lines 118-145): guards, preprocess, whisper transcription
with eager materialization of the segment sequence, no-separator concatenation,
and guaranteed release of the enhanced artifact. -/
def transcribe_audio (env : Env) (st : St) (audio_file_path temp_processing_dir : FPath) :
    Except PyExc String × St :=
  if !env.heavyOk then
    (.error (.importError ("faster_whisper.WhisperModel class not imported. Cannot transcribe.")), st)
  else if !env.whisperInstance then
    (.error (.importError ("WHISPER_MODEL_INSTANCE is not initialized. Cannot transcribe.")), st)
  else
    match preprocess_audio env st audio_file_path temp_processing_dir with
    | (.error e, st1) => (.error e, st1)
    | (.ok enhanced, st1) =>
      match env.whisperTranscribe enhanced with
      | .error e => transcribeFin st1 enhanced (.error e)
      | .ok segments => transcribeFin st1 enhanced (.ok (String.join (segments.map Segment.text)))

/-- The uniform failure record built by the except chain of
perform_full_audio_audit (lines 214-224), keyed by exception category; the
CalledProcessError message prefers captured stderr when it is non-empty (Python
truthiness of b""), falling back to str(e). ValueError and its subclass
json.JSONDecodeError share a handler. -/
def errString (e : PyExc) : String :=
  match e with
  | .fileNotFound _ => "Input audio file not found."
  | .valueError m => "Processing error: " ++ m
  | .jsonDecode m => "Processing error: " ++ m
  | .calledProcess stderrOut m =>
    "Audio conversion failed: " ++
      (match stderrOut with
       | some s => if s.isEmpty then m else s
       | Option.none => m)
  | .importError m => "Import error during processing: " ++ m
  | .other m => "An unexpected error occurred: " ++ m

/-- The FAILED audit record shape shared by all five except handlers. -/
def errRecord (base : String) (e : PyExc) : PyVal :=
  .dict [("audio_file", .str base), ("error", .str (errString e)),
         ("status", .str ("FAILED"))]

/-- The short-circuit record for an empty or whitespace-only transcript
(lines 205-209). -/
def emptyTransRecord (base : String) : PyVal :=
  .dict [("audio_file", .str base), ("transcription", .str ("")),
         ("sentiment", .str ("未知")),
         ("compliance_issues", .list [.str ("Empty transcription")]),
         ("summary", .str ("音频转录结果为空，无法进行分析。"))]

/-- The merge of the analysis result with audio_file and transcription
(lines 210-213); item assignment on a non-dict raises TypeError, which the
generic except handler converts to a FAILED record. -/
def bodyMerge (base transcription : String) : PyVal × St → Except PyExc PyVal × St
  | (analysis, st2) =>
    match dictSet analysis ("audio_file") (.str base) with
    | .error e => (.error e, st2)
    | .ok a1 =>
      match dictSet a1 ("transcription") (.str transcription) with
      | .error e => (.error e, st2)
      | .ok a2 => (.ok a2, st2)

/-- The try block of perform_full_audio_audit (lines 197-213): re-check the
capability guard, transcribe, short-circuit on an empty transcript, otherwise
analyze and merge. -/
def audit_body (env : Env) (st : St) (audio_file_path temp_dir : FPath) :
    Except PyExc PyVal × St :=
  if !env.heavyOk || !env.whisperInstance then
    (.error (.importError ("Core audio processing components are not available for a full audit.")), st)
  else
    match transcribe_audio env st audio_file_path temp_dir with
    | (.error e, st1) => (.error e, st1)
    | (.ok transcription, st1) =>
      if pyStrip transcription = "" then
        (.ok (emptyTransRecord (basename audio_file_path)), st1)
      else
        bodyMerge (basename audio_file_path) transcription (analyze_text env st1 transcription)

/-- Longest first component among the existing files. -/
def maxHeadLen : List FPath → Nat
  | [] => 0
  | f :: rest => max (match f with | [] => 0 | s :: _ => s.length) (maxHeadLen rest)

/-- The fresh directory name chosen by tempfile.TemporaryDirectory
(prefix="audio_audit_"): mkdtemp retries until the name is unused, which the
model realises by a name strictly longer than every existing first component. -/
def tempDirName (files : List FPath) : String :=
  "audio_audit_" ++ String.mk (List.replicate (maxHeadLen files + 1) 'x')

/-- isUnder dir p = true iff p lies inside directory dir. -/
def isUnder (dir p : FPath) : Bool := dir.isPrefixOf p

/-- Recursive removal of the scoped temporary directory at the with-block exit. -/
def cleanupDir (st : St) (dir : FPath) : St :=
  { st with files := st.files.filter (fun f => !(isUnder dir f)) }

/-- The scoped temporary working directory of one audit invocation. -/
def auditDir (st : St) : FPath := [tempDirName st.files]

/-- State at entry of the with-block body: the invocation is logged and the
scoped temporary directory has been created. -/
def auditStartSt (st : St) (p : FPath) : St :=
  logEv (logEv st (Ev.auditCall p)) (Ev.mkdir (auditDir st))

/-- Exit of the with-block: TemporaryDirectory removes the directory and its
remaining contents on every exit path. -/
def finishAudit (st : St) (dir : FPath) : St := logEv (cleanupDir st dir) (Ev.rmtree dir)

/-- perform_full_audio_audit (lines 192-224): the whole body runs inside
with tempfile.TemporaryDirectory(...), whose guaranteed cleanup is finishAudit;
the except chain turns every stage failure into the uniform errRecord. -/
def perform_full_audio_audit (env : Env) (st : St) (audio_file_path : FPath) : PyVal × St :=
  match audit_body env (auditStartSt st audio_file_path) audio_file_path (auditDir st) with
  | (.ok v, st2) => (v, finishAudit st2 (auditDir st))
  | (.error e, st2) => (errRecord (basename audio_file_path) e, finishAudit st2 (auditDir st))

/-- main.py line 150. -/
def SUPPORTED_AUDIO_EXTENSIONS : List String :=
  [".wav", ".mp3", ".m4a", ".flac", ".ogg", ".aac"]

/-- One loop iteration of upload_zip for a supported entry (lines 183-199):
run the audit, build the response model (pydantic validation is a black-box
oracle), and on any exception append the per-file FAILED entry. -/
def processZipEntry (env : Env) (st : St) (item_path : FPath) : PyVal × St :=
  match perform_full_audio_audit env st item_path with
  | (d, st1) =>
    match env.pydanticValidate d with
    | .ok r => (r, st1)
    | .error m =>
      (.dict [("audio_file", .str (basename item_path)),
              ("error", .str ("Failed to process audio file: " ++ m)),
              ("status", .str ("FAILED"))], st1)

/-- The os.walk loop of upload_zip (lines 177-201): entries are the extracted
files in traversal order; only entries whose basename extension (lower-cased)
is in the allow-list are audited. -/
def zipWalk (env : Env) : St → List FPath → List PyVal × St
  | st, [] => ([], st)
  | st, p :: rest =>
    if SUPPORTED_AUDIO_EXTENSIONS.contains (pyLower (splitext (basename p)).2) then
      match processZipEntry env st p with
      | (r, st1) =>
        match zipWalk env st1 rest with
        | (rs, st2) => (r :: rs, st2)
    else zipWalk env st rest

/-- upload_zip after a successful extraction (lines 177-210): walk the entries,
append the no-audio general error when nothing was processed, and assemble
(message, processed_files, errors). Saving the upload and the ZIP extraction
are external I/O of the HTTP layer and sit outside this model. -/
def upload_zip_results (env : Env) (st : St) (entries : List FPath) :
    (String × List PyVal × List String) × St :=
  match zipWalk env st entries with
  | (results, st1) =>
    let general_errors : List String :=
      if results.isEmpty then ["No supported audio files found in the ZIP archive."] else []
    ((if general_errors.isEmpty then ("ZIP file processed.") else ("ZIP file processed with errors."),
      results, general_errors), st1)

/-- Recognized sentiment markers (正面/负面/中性 from the prompt contract, 未知 as
the unknown marker used by every fallback). -/
def sentimentMarkers : List String := ["正面", "负面", "中性", "未知"]

/-- Every element is a string. -/
def isStrList : List PyVal → Bool
  | [] => true
  | .str _ :: rest => isStrList rest
  | _ => false

/-- The closed analysis-result shape of the spec data model: a dict with exactly
the keys sentiment / compliance_issues / summary, sentiment drawn from the
enumerated marker set, compliance_issues a list of strings, summary a string. -/
def wellFormedAnalysis (v : PyVal) : Bool :=
  match v with
  | .dict kvs =>
    (kvs.map Prod.fst == ["sentiment", "compliance_issues", "summary"]) &&
    (match lookupKey kvs ("sentiment") with
     | some (.str s) => sentimentMarkers.contains s
     | _ => false) &&
    (match lookupKey kvs ("compliance_issues") with
     | some (.list xs) => isStrList xs
     | _ => false) &&
    (match lookupKey kvs ("summary") with
     | some (.str _) => true
     | _ => false)
  | _ => false

/-- The conversion temp file name drawn inside preprocess_audio when the input
extension is not .wav, relative to the state at preprocess_audio entry (the
enhanced-artifact name consumes uuid draw st.ctr, the conversion name st.ctr+1). -/
def conversionTempName (env : Env) (st : St) (p : FPath) : String :=
  (splitext (basename p)).1 ++ "_temp_conversion_" ++ pySlice (env.uuids (st.ctr + 1)) 8 ++ ".wav"

/-- Count of LLM-adapter invocations in a trace. -/
def countLlm (l : List Ev) : Nat := l.countP (fun e => match e with | Ev.llmCall => true | _ => false)

/-- Count of top-level audit invocations in a trace. -/
def countAudit (l : List Ev) : Nat :=
  l.countP (fun e => match e with | Ev.auditCall _ => true | _ => false)

/-- The files outside directory dir. -/
def outsideFiles (dir : FPath) (l : List FPath) : List FPath :=
  l.filter (fun f => !(isUnder dir f))

/-- A computation step keeps the world outside dir intact and performs no
LLM-adapter call. -/
def Keeps (dir : FPath) (st st2 : St) : Prop :=
  outsideFiles dir st2.files = outsideFiles dir st.files ∧
  countLlm st2.trace = countLlm st.trace

/-- A concrete all-stages-succeed environment used by the witness theorems:
ffmpeg converts, the models run, whisper hears 你好, ollama answers with a
parseable analysis. -/
def envD : Env :=
  { heavyOk := true, whisperInstance := true,
    uuids := fun n => toString n,
    ffmpeg := fun _ _ => .ok,
    loadAudio := fun _ => .ok (0, 16000),
    meanMono := fun w => w,
    denoise_func := fun w sr => .ok (w, sr),
    enhance_func := fun w sr => .ok (w, sr),
    almostSilent := fun _ => false,
    saveAudio := fun _ _ _ => .ok,
    whisperTranscribe := fun _ => .ok [⟨"你好"⟩],
    ollamaGen := fun _ _ => .returns (.dict [("response", .str ("RESPOK"))]),
    jsonLoads := fun s =>
      if s = "RESPOK" then
        .ok (.dict [("sentiment", .str ("正面")), ("compliance_issues", .list []),
                    ("summary", .str ("分析摘要"))])
      else .error ("Expecting value: line 1 column 1 (char 0)"),
    pydanticValidate := fun v => .ok v }

/-- envD with the capability guard reporting unavailable. -/
def envU : Env := { envD with heavyOk := false }

/-- envD with a whitespace-only transcription. -/
def envW : Env := { envD with whisperTranscribe := fun _ => .ok [⟨" "⟩] }

/-- envD with an LLM response that is not valid JSON. -/
def envJ : Env :=
  { envD with
    ollamaGen := fun _ _ => .returns (.dict [("response", .str ("hi"))]),
    jsonLoads := fun _ => .error ("Expecting value: line 1 column 1 (char 0)") }

/-- envD with an LLM response that parses as the bare JSON number 42. -/
def envN : Env :=
  { envD with
    ollamaGen := fun _ _ => .returns (.dict [("response", .str ("42"))]),
    jsonLoads := fun _ => .ok (.num 42) }

/-- The empty world. -/
def st0 : St := { files := [], ctr := 0, trace := [] }

/-- A world holding one uploaded file input.mp3. -/
def stD : St := { files := [["input.mp3"]], ctr := 0, trace := [] }

/-- The path of the uploaded file. -/
def pD : FPath := ["input.mp3"]

/-- A path used by the guard-unavailable witnesses. -/
def pU : FPath := ["a.wav"]

/-- A caller-supplied working directory used by the stage-level witnesses. -/
def dirD : FPath := ["workdir"]

/-- The enhanced artifact path preprocess_audio produces for envD / stD / pD
inside dirD (uuid draw 0). -/
def enhD : FPath := ["workdir", "input_enhanced_0.wav"]

/-- The state after that preprocess_audio run. -/
def stPreD : St := (preprocess_audio envD stD pD dirD).2

/-- The state after the transcription stage of the c4 witness run. -/
def stTrW : St := (transcribe_audio envW (auditStartSt stD pD) pD (auditDir stD)).2

/-- The extracted entries of a ZIP archive holding no audio file. -/
def entries0 : List FPath := [["readme.txt"], ["doc.pdf"]]

end Audit

namespace Audit

/-- A list is a Boolean prefix of itself followed by anything. -/
theorem isPrefixOf_append_self (l t : List String) : l.isPrefixOf (l ++ t) = true := by
  induction l with
  | nil => simp [List.isPrefixOf]
  | cons x xs ih => simp [List.isPrefixOf, ih]

/-- A direct child of dir is under dir. -/
theorem isUnder_child (dir : FPath) (x : String) : isUnder dir (dir ++ [x]) = true :=
  isPrefixOf_append_self dir [x]

/-- A string with a non-empty left part is non-empty. -/
theorem strAppend_ne_empty (a b : String) (h : a.length ≠ 0) : a ++ b ≠ "" := by
  intro hc
  have h2 : (a ++ b).length = 0 := by rw [hc]; rfl
  rw [String.length_append] at h2
  omega

/-- After removeFile p, p is gone (all occurrences are filtered out). -/
theorem notMem_removeFile (st : St) (p : FPath) : p ∉ (removeFile st p).files := by
  simp [removeFile, List.mem_filter]

/-- fileExists is membership. -/
theorem mem_of_fileExists (st : St) (p : FPath) (h : fileExists st p = true) : p ∈ st.files := by
  simpa [fileExists] using h

/-- Non-membership from a false fileExists. -/
theorem notMem_of_fileExists_false (st : St) (p : FPath) (h : fileExists st p = false) :
    p ∉ st.files := by
  intro hm
  have h2 : fileExists st p = true := by simpa [fileExists] using hm
  rw [h2] at h
  exact Bool.noConfusion h

/-- Creating a file under dir does not change the files outside dir. -/
theorem outsideFiles_create (dir : FPath) (st : St) (p : FPath) (h : isUnder dir p = true) :
    outsideFiles dir (createFile st p).files = outsideFiles dir st.files := by
  by_cases hc : p ∈ st.files
  · simp [createFile, outsideFiles, hc]
  · simp [createFile, outsideFiles, hc, List.filter_cons, h]

/-- Removing a file under dir does not change the files outside dir. -/
theorem outsideFiles_remove (dir : FPath) (st : St) (p : FPath) (h : isUnder dir p = true) :
    outsideFiles dir (removeFile st p).files = outsideFiles dir st.files := by
  simp only [removeFile, outsideFiles, List.filter_filter]
  apply List.filter_congr
  intro f _
  by_cases hu : isUnder dir f
  · simp [hu]
  · simp only [hu, Bool.not_false, Bool.true_and]
    have hfp : f ≠ p := by
      intro he
      rw [he] at hu
      exact hu (by simp [h])
    simpa using hfp

/-- countLlm ignores a trailing non-LLM event. -/
theorem countLlm_snoc (l : List Ev) (e : Ev)
    (h : (match e with | Ev.llmCall => true | _ => false) = false) :
    countLlm (l ++ [e]) = countLlm l := by
  simp [countLlm, List.countP_append, List.countP_cons, h]

/-- countAudit over an append. -/
theorem countAudit_append (l l2 : List Ev) :
    countAudit (l ++ l2) = countAudit l + countAudit l2 := by
  simp [countAudit, List.countP_append]

theorem keeps_refl (dir : FPath) (st : St) : Keeps dir st st := ⟨rfl, rfl⟩

theorem keeps_trans (dir : FPath) (st1 st2 st3 : St)
    (h1 : Keeps dir st1 st2) (h2 : Keeps dir st2 st3) : Keeps dir st1 st3 :=
  ⟨h2.1.trans h1.1, h2.2.trans h1.2⟩

theorem keeps_createFile (dir : FPath) (st : St) (p : FPath) (h : isUnder dir p = true) :
    Keeps dir st (createFile st p) :=
  ⟨outsideFiles_create dir st p h, countLlm_snoc st.trace (Ev.create p) rfl⟩

theorem keeps_removeFile (dir : FPath) (st : St) (p : FPath) (h : isUnder dir p = true) :
    Keeps dir st (removeFile st p) :=
  ⟨outsideFiles_remove dir st p h, countLlm_snoc st.trace (Ev.remove p) rfl⟩

theorem keeps_removeIf (dir : FPath) (st : St) (p : FPath) (h : isUnder dir p = true) :
    Keeps dir st (if fileExists st p then removeFile st p else st) := by
  by_cases he : fileExists st p
  · simpa [he] using keeps_removeFile dir st p h
  · simpa [he] using keeps_refl dir st

theorem keeps_logEv_mkdirp (dir : FPath) (st : St) (d : FPath) :
    Keeps dir st (logEv st (Ev.mkdirp d)) :=
  ⟨rfl, countLlm_snoc st.trace (Ev.mkdirp d) rfl⟩

theorem keeps_ctr (dir : FPath) (st : St) (n : Nat) :
    Keeps dir st { st with ctr := n } := ⟨rfl, rfl⟩

end Audit


namespace Audit

/-- The first component of any file in the list is at most maxHeadLen long. -/
theorem head_le_maxHeadLen (files : List FPath) (s : String) (t : List String)
    (hf : (s :: t) ∈ files) : s.length ≤ maxHeadLen files := by
  induction files with
  | nil => cases hf
  | cons g rest ih =>
    rcases List.mem_cons.mp hf with hf | hf
    · simp [maxHeadLen, ← hf]
    · exact le_trans (ih hf) (by simp [maxHeadLen])

/-- Length of the fresh temporary-directory name. -/
theorem tempDirName_length (files : List FPath) :
    (tempDirName files).length = 13 + maxHeadLen files := by
  have h1 : (tempDirName files).length
      = ("audio_audit_" : String).length + (String.mk (List.replicate (maxHeadLen files + 1) 'x')).length := by
    rw [tempDirName, String.length_append]
  have h2 : (String.mk (List.replicate (maxHeadLen files + 1) 'x')).length
      = maxHeadLen files + 1 := by
    show (List.replicate (maxHeadLen files + 1) 'x').length = maxHeadLen files + 1
    simp
  have h3 : ("audio_audit_" : String).length = 12 := rfl
  rw [h1, h2, h3]
  omega

/-- No pre-existing file lies under the fresh temporary directory. -/
theorem isUnder_tempDir_false (files : List FPath) (f : FPath) (hf : f ∈ files) :
    isUnder [tempDirName files] f = false := by
  cases f with
  | nil => rfl
  | cons s t =>
    have hlen : s.length ≤ maxHeadLen files := head_le_maxHeadLen files s t hf
    have hne : tempDirName files ≠ s := by
      intro he
      have h2 : (tempDirName files).length = s.length := by rw [he]
      rw [tempDirName_length] at h2
      omega
    have hb : (tempDirName files == s) = false := by simpa using hne
    simp [isUnder, List.isPrefixOf, hb]

/-- Cleaning the fresh temporary directory out of the original files is a no-op. -/
theorem outsideFiles_tempDir (files : List FPath) :
    outsideFiles [tempDirName files] files = files := by
  rw [outsideFiles]
  apply List.filter_eq_self.mpr
  intro f hf
  simp [isUnder_tempDir_false files f hf]

/-- afterConvert keeps the world outside dir intact when its output artifact is
under dir, for every capability behaviour. -/
theorem afterConvert_keeps (env : Env) (st : St) (cur outp dir : FPath)
    (h : isUnder dir outp = true) :
    Keeps dir st (afterConvert env st cur outp).2 := by
  unfold afterConvert
  cases hl : env.loadAudio cur with
  | error e => exact keeps_refl dir st
  | ok pr =>
    obtain ⟨dwav0, sr⟩ := pr
    dsimp only
    cases hd : env.denoise_func (env.meanMono dwav0) sr with
    | error e => exact keeps_refl dir st
    | ok pr2 =>
      obtain ⟨wav_denoised, sr_denoised⟩ := pr2
      dsimp only
      cases he : env.enhance_func wav_denoised sr_denoised with
      | error e => exact keeps_refl dir st
      | ok pr3 =>
        obtain ⟨wav_enhanced, sr_enhanced⟩ := pr3
        dsimp only
        by_cases hs : env.almostSilent wav_enhanced
        · simp only [hs, if_true]
          exact keeps_refl dir st
        · simp only [hs, if_false, Bool.false_eq_true]
          cases hsv : env.saveAudio outp wav_enhanced sr_enhanced with
          | ok => exact keeps_createFile dir st outp h
          | fail e leftover =>
            cases leftover with
            | true => exact keeps_createFile dir st outp h
            | false => exact keeps_refl dir st

/-- convertThen keeps the world outside dir intact when both artifacts are
under dir. -/
theorem convertThen_keeps (env : Env) (st : St) (inp tmp outp dir : FPath)
    (h1 : isUnder dir tmp = true) (h2 : isUnder dir outp = true) :
    Keeps dir st (convertThen env st inp tmp outp).1.2 := by
  unfold convertThen
  cases hf : env.ffmpeg inp tmp with
  | ok =>
    exact keeps_trans dir st (createFile st tmp) _
      (keeps_createFile dir st tmp h1)
      (afterConvert_keeps env (createFile st tmp) tmp outp dir h2)
  | fail so m leftover =>
    cases leftover with
    | true => exact keeps_createFile dir st tmp h1
    | false => exact keeps_refl dir st

/-- The temp_wav_file handed to the finally block is always the conversion temp. -/
theorem convertThen_opt (env : Env) (st : St) (inp tmp outp : FPath) :
    (convertThen env st inp tmp outp).2 = some tmp := by
  unfold convertThen
  cases env.ffmpeg inp tmp <;> rfl

/-- preprocessTry keeps the world outside its caller-supplied output directory. -/
theorem preprocessTry_keeps (env : Env) (st : St) (inp dir : FPath) (base ext : String)
    (outp : FPath) (h : isUnder dir outp = true) :
    Keeps dir st (preprocessTry env st inp dir base ext outp).1.2 := by
  unfold preprocessTry
  by_cases hx : pyLower ext ≠ ".wav"
  · rw [if_pos hx]
    exact keeps_trans dir st _ _
      (keeps_ctr dir st (st.ctr + 1))
      (convertThen_keeps env { st with ctr := st.ctr + 1 } inp _ outp dir
        (isUnder_child dir _) h)
  · rw [if_neg hx]
    exact afterConvert_keeps env st inp outp dir h

/-- The temp_wav_file value handed to the finally block is always under the
output directory. -/
theorem preprocessTry_opt_under (env : Env) (st : St) (inp dir : FPath) (base ext : String)
    (outp : FPath) (p : FPath) (hp : (preprocessTry env st inp dir base ext outp).2 = some p) :
    isUnder dir p = true := by
  unfold preprocessTry at hp
  by_cases hx : pyLower ext ≠ ".wav"
  · rw [if_pos hx, convertThen_opt] at hp
    rw [← Option.some.inj hp]
    exact isUnder_child dir _
  · rw [if_neg hx] at hp
    exact Option.noConfusion hp

/-- The finally block keeps the world outside dir intact given the try block did. -/
theorem preprocessFinally_keeps (dir : FPath) (st : St)
    (x : (Except PyExc FPath × St) × Option FPath)
    (hopt : ∀ p, x.2 = some p → isUnder dir p = true)
    (hk : Keeps dir st x.1.2) :
    Keeps dir st (preprocessFinally x).2 := by
  obtain ⟨⟨r, st1⟩, opt⟩ := x
  cases opt with
  | none => exact hk
  | some p =>
    exact keeps_trans dir st st1 _ hk (keeps_removeIf dir st1 p (hopt p rfl))

/-- preprocess_audio keeps the world outside its output directory intact and
performs no LLM call, for every capability behaviour. -/
theorem preprocess_keeps (env : Env) (st : St) (inp dir : FPath) :
    Keeps dir st (preprocess_audio env st inp dir).2 := by
  unfold preprocess_audio
  by_cases hH : env.heavyOk
  · by_cases hE : fileExists st inp
    · simp only [hH, hE, Bool.not_true, if_false, Bool.false_eq_true]
      unfold preprocessMain
      apply preprocessFinally_keeps dir _ _
        (fun p hp => preprocessTry_opt_under env _ inp dir _ _ _ p hp)
      apply keeps_trans dir st _ _
        (keeps_trans dir st _ _ (keeps_logEv_mkdirp dir st dir)
          (keeps_ctr dir (logEv st (Ev.mkdirp dir)) _))
      exact preprocessTry_keeps env _ inp dir _ _ _ (isUnder_child dir _)
    · have hE2 : fileExists st inp = false := by simpa using hE
      simp only [hH, hE2, Bool.not_true, Bool.not_false, Bool.false_eq_true, if_false, if_true]
      exact keeps_refl dir st
  · have hH2 : env.heavyOk = false := by simpa using hH
    simp only [hH2, Bool.not_false, if_true]
    exact keeps_refl dir st

end Audit

namespace Audit

/-- The only success value of afterConvert is its output artifact path. -/
theorem afterConvert_ok (env : Env) (st : St) (cur outp : FPath) (q : FPath)
    (hq : (afterConvert env st cur outp).1 = .ok q) : q = outp := by
  unfold afterConvert at hq
  cases hl : env.loadAudio cur with
  | error e => rw [hl] at hq; exact Except.noConfusion hq
  | ok pr =>
    obtain ⟨dwav0, sr⟩ := pr
    rw [hl] at hq
    dsimp only at hq
    cases hd : env.denoise_func (env.meanMono dwav0) sr with
    | error e => rw [hd] at hq; exact Except.noConfusion hq
    | ok pr2 =>
      obtain ⟨wav_denoised, sr_denoised⟩ := pr2
      rw [hd] at hq
      dsimp only at hq
      cases he : env.enhance_func wav_denoised sr_denoised with
      | error e => rw [he] at hq; exact Except.noConfusion hq
      | ok pr3 =>
        obtain ⟨wav_enhanced, sr_enhanced⟩ := pr3
        rw [he] at hq
        dsimp only at hq
        by_cases hs : env.almostSilent wav_enhanced
        · rw [if_pos hs] at hq
          exact Except.noConfusion hq
        · rw [if_neg hs] at hq
          cases hsv : env.saveAudio outp wav_enhanced sr_enhanced with
          | ok => rw [hsv] at hq; exact (Except.ok.inj hq).symm
          | fail e leftover => rw [hsv] at hq; exact Except.noConfusion hq

/-- The only success value of convertThen is the enhanced artifact path. -/
theorem convertThen_ok (env : Env) (st : St) (inp tmp outp : FPath) (q : FPath)
    (hq : (convertThen env st inp tmp outp).1.1 = .ok q) : q = outp := by
  unfold convertThen at hq
  cases hf : env.ffmpeg inp tmp with
  | ok =>
    rw [hf] at hq
    exact afterConvert_ok env (createFile st tmp) tmp outp q hq
  | fail so m leftover =>
    rw [hf] at hq
    exact Except.noConfusion hq

/-- The only success value of preprocessTry is the enhanced artifact path. -/
theorem preprocessTry_ok (env : Env) (st : St) (inp dir : FPath) (base ext : String)
    (outp : FPath) (q : FPath)
    (hq : (preprocessTry env st inp dir base ext outp).1.1 = .ok q) : q = outp := by
  unfold preprocessTry at hq
  by_cases hx : pyLower ext ≠ ".wav"
  · rw [if_pos hx] at hq
    exact convertThen_ok env _ inp _ outp q hq
  · rw [if_neg hx] at hq
    exact afterConvert_ok env st inp outp q hq

/-- The finally block does not change the stage result. -/
theorem preprocessFinally_fst (x : (Except PyExc FPath × St) × Option FPath) :
    (preprocessFinally x).1 = x.1.1 := by
  obtain ⟨⟨r, st1⟩, opt⟩ := x
  cases opt <;> rfl

/-- A successful preprocess_audio returns a path inside its output directory. -/
theorem preprocess_ok_under (env : Env) (st : St) (inp dir : FPath) (q : FPath) (st1 : St)
    (hq : preprocess_audio env st inp dir = (.ok q, st1)) : isUnder dir q = true := by
  have hfst : (preprocess_audio env st inp dir).1 = .ok q := by rw [hq]
  unfold preprocess_audio at hfst
  by_cases hH : env.heavyOk
  · by_cases hE : fileExists st inp
    · simp only [hH, hE, Bool.not_true, if_false, Bool.false_eq_true] at hfst
      unfold preprocessMain at hfst
      rw [preprocessFinally_fst] at hfst
      have := preprocessTry_ok env _ inp dir _ _ _ q hfst
      rw [this]
      exact isUnder_child dir _
    · have hE2 : fileExists st inp = false := by simpa using hE
      simp only [hH, hE2, Bool.not_true, Bool.not_false, Bool.false_eq_true, if_false, if_true] at hfst
      exact Except.noConfusion hfst
  · have hH2 : env.heavyOk = false := by simpa using hH
    simp only [hH2, Bool.not_false, if_true] at hfst
    exact Except.noConfusion hfst

/-- transcribe_audio keeps the world outside the processing directory intact and
performs no LLM call, for every capability behaviour: in particular its finally
block always releases the enhanced artifact, which lives under the directory. -/
theorem transcribe_keeps (env : Env) (st : St) (p dir : FPath) :
    Keeps dir st (transcribe_audio env st p dir).2 := by
  unfold transcribe_audio
  by_cases hH : env.heavyOk
  · by_cases hW : env.whisperInstance
    · simp only [hH, hW, Bool.not_true, if_false, Bool.false_eq_true]
      cases hpre : preprocess_audio env st p dir with
      | mk r1 st1 =>
        cases r1 with
        | error e =>
          have := preprocess_keeps env st p dir
          rw [hpre] at this
          exact this
        | ok enhanced =>
          have hk1 : Keeps dir st st1 := by
            have := preprocess_keeps env st p dir
            rw [hpre] at this
            exact this
          have hu : isUnder dir enhanced = true :=
            preprocess_ok_under env st p dir enhanced st1 hpre
          dsimp only
          cases hw : env.whisperTranscribe enhanced with
          | error e =>
            dsimp only [transcribeFin]
            exact keeps_trans dir st st1 _ hk1
              (keeps_removeIf dir st1 enhanced hu)
          | ok segments =>
            dsimp only [transcribeFin]
            exact keeps_trans dir st st1 _ hk1
              (keeps_removeIf dir st1 enhanced hu)
    · have hW2 : env.whisperInstance = false := by simpa using hW
      simp only [hH, hW2, Bool.not_true, Bool.not_false, Bool.false_eq_true, if_false, if_true]
      exact keeps_refl dir st
  · have hH2 : env.heavyOk = false := by simpa using hH
    simp only [hH2, Bool.not_false, if_true]
    exact keeps_refl dir st

/-- The state component of analyze_text is exactly the llmCall-logged state:
the adapter touches no file. -/
theorem analyze_snd (env : Env) (st : St) (text : String) :
    (analyze_text env st text).2 = logEv st Ev.llmCall := by
  unfold analyze_text
  dsimp only
  cases hg : env.ollamaGen OLLAMA_MODEL_NAME (promptFor text) with
  | raises m => rfl
  | returns response =>
    dsimp only
    cases hc : pyContains response ("response") with
    | error e => rfl
    | ok b =>
      cases b with
      | false => rfl
      | true =>
        dsimp only
        cases hi : pyIndexStr response ("response") with
        | error e => rfl
        | ok rv =>
          dsimp only
          cases rv with
          | str s =>
            dsimp only
            cases hj : env.jsonLoads s with
            | ok v => rfl
            | error em => rfl
          | num n => rfl
          | bool b2 => rfl
          | none => rfl
          | list xs => rfl
          | dict kvs => rfl

/-- bodyMerge does not change the state. -/
theorem bodyMerge_snd (base transcription : String) (x : PyVal × St) :
    (bodyMerge base transcription x).2 = x.2 := by
  obtain ⟨analysis, st2⟩ := x
  unfold bodyMerge
  dsimp only
  cases h1 : dictSet analysis ("audio_file") (.str base) with
  | error e => rfl
  | ok a1 =>
    dsimp only
    cases h2 : dictSet a1 ("transcription") (.str transcription) with
    | error e => rfl
    | ok a2 => rfl

/-- The try block of the orchestrator keeps the world outside the scoped
temporary directory intact, for every capability behaviour. -/
theorem body_outside (env : Env) (st : St) (p dir : FPath) :
    outsideFiles dir ((audit_body env st p dir).2).files = outsideFiles dir st.files := by
  unfold audit_body
  by_cases hg : (!env.heavyOk || !env.whisperInstance) = true
  · rw [if_pos hg]
  · rw [if_neg hg]
    cases htr : transcribe_audio env st p dir with
    | mk r1 st1 =>
      have hk1 : outsideFiles dir st1.files = outsideFiles dir st.files := by
        have := (transcribe_keeps env st p dir).1
        rw [htr] at this
        exact this
      cases r1 with
      | error e => exact hk1
      | ok transcription =>
        dsimp only
        by_cases hs : pyStrip transcription = ""
        · rw [if_pos hs]
          exact hk1
        · rw [if_neg hs]
          rw [bodyMerge_snd, analyze_snd]
          exact hk1

/-- lookupKey after setKey at the same key. -/
theorem lookup_setKey_self (kvs : List (String × PyVal)) (k : String) (x : PyVal) :
    lookupKey (setKey kvs k x) k = some x := by
  induction kvs with
  | nil => simp [setKey, lookupKey]
  | cons hd rest ih =>
    obtain ⟨k0, v⟩ := hd
    by_cases hk : k0 = k
    · simp [setKey, hk, lookupKey]
    · simp [setKey, hk, lookupKey, ih]

/-- lookupKey after setKey at a different key. -/
theorem lookup_setKey_of_ne (kvs : List (String × PyVal)) (k1 k : String) (x : PyVal)
    (h : k1 ≠ k) : lookupKey (setKey kvs k1 x) k = lookupKey kvs k := by
  induction kvs with
  | nil => simp [setKey, lookupKey, h]
  | cons hd rest ih =>
    obtain ⟨k0, v⟩ := hd
    by_cases hk : k0 = k1
    · subst hk
      simp [setKey, lookupKey, h]
    · simp [setKey, lookupKey, hk, ih]

/-- Every success value of the orchestrator body carries the input base name
under the audio_file key. -/
theorem body_ok_audio_file (env : Env) (st : St) (p dir : FPath) (v : PyVal) (st2 : St)
    (hb : audit_body env st p dir = (.ok v, st2)) :
    dictGet v ("audio_file") = some (.str (basename p)) := by
  unfold audit_body at hb
  by_cases hg : (!env.heavyOk || !env.whisperInstance) = true
  · rw [if_pos hg] at hb
    simp at hb
  · rw [if_neg hg] at hb
    cases htr : transcribe_audio env st p dir with
    | mk r1 st1 =>
      rw [htr] at hb
      cases r1 with
      | error e => simp at hb
      | ok transcription =>
        dsimp only at hb
        by_cases hs : pyStrip transcription = ""
        · rw [if_pos hs] at hb
          have hv : emptyTransRecord (basename p) = v := by
            have := (Prod.mk.injEq _ _ _ _).mp hb
            exact Except.ok.inj this.1
          rw [← hv]
          rfl
        · rw [if_neg hs] at hb
          cases hpa : analyze_text env st1 transcription with
          | mk analysis st3 =>
            rw [hpa] at hb
            unfold bodyMerge at hb
            cases analysis with
            | dict kvs =>
              dsimp only [dictSet] at hb
              have hv : PyVal.dict (setKey (setKey kvs ("audio_file") (.str (basename p)))
                  ("transcription") (.str transcription)) = v := by
                have := (Prod.mk.injEq _ _ _ _).mp hb
                exact Except.ok.inj this.1
              rw [← hv]
              show lookupKey (setKey (setKey kvs ("audio_file") (.str (basename p)))
                  ("transcription") (.str transcription)) ("audio_file")
                = some (.str (basename p))
              rw [lookup_setKey_of_ne _ _ _ _ (by decide)]
              exact lookup_setKey_self kvs ("audio_file") (.str (basename p))
            | str s => dsimp only [dictSet] at hb; simp at hb
            | num n => dsimp only [dictSet] at hb; simp at hb
            | bool b => dsimp only [dictSet] at hb; simp at hb
            | none => dsimp only [dictSet] at hb; simp at hb
            | list xs => dsimp only [dictSet] at hb; simp at hb

end Audit

namespace Audit

/-- After the finally block, the temp_wav_file it was handed is gone. -/
theorem preprocessFinally_opt_gone (x : (Except PyExc FPath × St) × Option FPath) (q : FPath)
    (hq : x.2 = some q) : q ∉ ((preprocessFinally x).2).files := by
  obtain ⟨⟨r, st1⟩, opt⟩ := x
  cases opt with
  | none => exact Option.noConfusion hq
  | some p2 =>
    have hpq : p2 = q := Option.some.inj hq
    subst hpq
    dsimp only [preprocessFinally]
    by_cases he : fileExists st1 p2
    · rw [if_pos he]
      exact notMem_removeFile st1 p2
    · rw [if_neg he]
      exact notMem_of_fileExists_false st1 p2 (by simpa using he)

/-- C1: every temporary artifact created during one audit invocation is deleted
on every exit path. (i) perform_full_audio_audit leaves the set of existing
files exactly as it found it, for every input path, every initial world and
every behaviour of every capability (success, expected failure, or unexpected
exception) — the scoped temporary working directory and everything inside it is
removed by the with-block on every exit path. (ii) transcribe_audio always
removes the enhanced intermediate file that a successful preprocess_audio run
created, on both its success and failure paths. (iii) whenever preprocess_audio
performs a format conversion (input extension is not .wav), its temporary
conversion file is gone when it returns, on both success and failure paths. -/
theorem c1_cleanup :
    (∀ (env : Env) (st : St) (p : FPath),
      ((perform_full_audio_audit env st p).2).files = st.files) ∧
    (∀ (env : Env) (st : St) (p dir enh : FPath) (st1 : St),
      env.heavyOk = true → env.whisperInstance = true →
      preprocess_audio env st p dir = (.ok enh, st1) →
      enh ∉ ((transcribe_audio env st p dir).2).files) ∧
    (∀ (env : Env) (st : St) (p dir : FPath),
      pyLower (splitext (basename p)).2 ≠ ".wav" →
      (dir ++ [conversionTempName env st p]) ∉ st.files →
      (dir ++ [conversionTempName env st p]) ∉ ((preprocess_audio env st p dir).2).files) := by
  refine ⟨?_, ?_, ?_⟩
  · intro env st p
    unfold perform_full_audio_audit
    cases hb : audit_body env (auditStartSt st p) p (auditDir st) with
    | mk r st2 =>
      have hout : outsideFiles (auditDir st) st2.files = outsideFiles (auditDir st) st.files := by
        have h := body_outside env (auditStartSt st p) p (auditDir st)
        rw [hb] at h
        exact h
      cases r with
      | ok v =>
        show (finishAudit st2 (auditDir st)).files = st.files
        have h2 : (finishAudit st2 (auditDir st)).files = outsideFiles (auditDir st) st2.files := rfl
        rw [h2, hout]
        exact outsideFiles_tempDir st.files
      | error e =>
        show (finishAudit st2 (auditDir st)).files = st.files
        have h2 : (finishAudit st2 (auditDir st)).files = outsideFiles (auditDir st) st2.files := rfl
        rw [h2, hout]
        exact outsideFiles_tempDir st.files
  · intro env st p dir enh st1 hH hW hpre
    unfold transcribe_audio
    simp only [hH, hW, Bool.not_true, Bool.false_eq_true, if_false]
    rw [hpre]
    dsimp only
    cases hw : env.whisperTranscribe enh with
    | error e =>
      dsimp only [transcribeFin]
      by_cases he : fileExists st1 enh
      · rw [if_pos he]
        exact notMem_removeFile st1 enh
      · rw [if_neg he]
        exact notMem_of_fileExists_false st1 enh (by simpa using he)
    | ok segments =>
      dsimp only [transcribeFin]
      by_cases he : fileExists st1 enh
      · rw [if_pos he]
        exact notMem_removeFile st1 enh
      · rw [if_neg he]
        exact notMem_of_fileExists_false st1 enh (by simpa using he)
  · intro env st p dir hx hnot
    unfold preprocess_audio
    by_cases hH : env.heavyOk
    · by_cases hE : fileExists st p
      · simp only [hH, hE, Bool.not_true, Bool.false_eq_true, if_false]
        unfold preprocessMain
        apply preprocessFinally_opt_gone
        unfold preprocessTry
        rw [if_pos hx]
        exact convertThen_opt env _ p _ _
      · have hE2 : fileExists st p = false := by simpa using hE
        simp only [hH, hE2, Bool.not_true, Bool.not_false, Bool.false_eq_true, if_false, if_true]
        exact hnot
    · have hH2 : env.heavyOk = false := by simpa using hH
      simp only [hH2, Bool.not_false, if_true]
      exact hnot

/-- Witness for c1_cleanup at the concrete all-stages-succeed run on input.mp3. -/
theorem c1_cleanup_witness :
    ((perform_full_audio_audit envD stD pD).2).files = stD.files ∧
    enhD ∉ ((transcribe_audio envD stD pD dirD).2).files ∧
    (dirD ++ [conversionTempName envD stD pD]) ∉ ((preprocess_audio envD stD pD dirD).2).files :=
  ⟨c1_cleanup.1 envD stD pD,
   c1_cleanup.2.1 envD stD pD dirD enhD stPreD rfl rfl rfl,
   c1_cleanup.2.2 envD stD pD dirD (by decide) (by decide)⟩

/-- C2: perform_full_audio_audit never propagates an exception: in the model its
return type is a plain value, every raise path of the body ends in the except
chain, and whenever the body fails with any exception e the returned dict is the
uniform record carrying the base name of the input file, the dedicated error
string of the category of e, and status "FAILED", with a never-empty message. -/
theorem c2_failure_uniformity :
    ∀ (env : Env) (st : St) (p : FPath) (e : PyExc) (st2 : St),
      audit_body env (auditStartSt st p) p (auditDir st) = (.error e, st2) →
      (perform_full_audio_audit env st p).1 = errRecord (basename p) e ∧
      dictGet ((perform_full_audio_audit env st p).1) ("audio_file") = some (.str (basename p)) ∧
      dictGet ((perform_full_audio_audit env st p).1) ("status") = some (.str ("FAILED")) ∧
      dictGet ((perform_full_audio_audit env st p).1) ("error") = some (.str (errString e)) ∧
      errString e ≠ "" := by
  intro env st p e st2 hb
  have hp : (perform_full_audio_audit env st p).1 = errRecord (basename p) e := by
    unfold perform_full_audio_audit
    rw [hb]
  refine ⟨hp, by rw [hp]; rfl, by rw [hp]; rfl, by rw [hp]; rfl, ?_⟩
  cases e with
  | fileNotFound m => exact (by decide : ("Input audio file not found." : String) ≠ "")
  | valueError m => exact strAppend_ne_empty ("Processing error: ") m (by decide)
  | jsonDecode m => exact strAppend_ne_empty ("Processing error: ") m (by decide)
  | calledProcess so m => exact strAppend_ne_empty ("Audio conversion failed: ") _ (by decide)
  | importError m => exact strAppend_ne_empty ("Import error during processing: ") m (by decide)
  | other m => exact strAppend_ne_empty ("An unexpected error occurred: ") m (by decide)

/-- Witness for c2_failure_uniformity: the guard-unavailable failure. -/
theorem c2_witness :
    (perform_full_audio_audit envU st0 pU).1
      = errRecord (basename pU)
          (PyExc.importError ("Core audio processing components are not available for a full audit.")) ∧
    dictGet ((perform_full_audio_audit envU st0 pU).1) ("audio_file")
      = some (.str (basename pU)) ∧
    dictGet ((perform_full_audio_audit envU st0 pU).1) ("status") = some (.str ("FAILED")) ∧
    dictGet ((perform_full_audio_audit envU st0 pU).1) ("error")
      = some (.str (errString (PyExc.importError ("Core audio processing components are not available for a full audit.")))) ∧
    errString (PyExc.importError ("Core audio processing components are not available for a full audit.")) ≠ "" :=
  c2_failure_uniformity envU st0 pU _ (auditStartSt st0 pU) rfl

/-- C3 (amended): when the capability guard reports unavailable, every audit
invocation returns the FAILED capability-unavailable record, the guard being
evaluated inside each invocation; the set of files is untouched and the only
filesystem events of the invocation are the creation and removal of the (empty)
scoped temporary directory — which the with-block acquires before the guard
check, so the filesystem is touched to that extent. No LLM call happens. -/
theorem c3_guard_unavailable :
    ∀ (env : Env) (st : St) (p : FPath),
      env.heavyOk = false ∨ env.whisperInstance = false →
      (perform_full_audio_audit env st p).1
        = errRecord (basename p)
            (.importError ("Core audio processing components are not available for a full audit.")) ∧
      ((perform_full_audio_audit env st p).2).files = st.files ∧
      ((perform_full_audio_audit env st p).2).trace
        = st.trace ++ [Ev.auditCall p, Ev.mkdir (auditDir st), Ev.rmtree (auditDir st)] ∧
      countLlm ((perform_full_audio_audit env st p).2).trace = countLlm st.trace := by
  intro env st p h
  have hg : (!env.heavyOk || !env.whisperInstance) = true := by
    rcases h with h | h <;> simp [h]
  have hb : audit_body env (auditStartSt st p) p (auditDir st)
      = (.error (.importError ("Core audio processing components are not available for a full audit.")),
         auditStartSt st p) := by
    unfold audit_body
    rw [if_pos hg]
  have h1 : perform_full_audio_audit env st p
      = (errRecord (basename p)
          (.importError ("Core audio processing components are not available for a full audit.")),
         finishAudit (auditStartSt st p) (auditDir st)) := by
    unfold perform_full_audio_audit
    rw [hb]
  have h3 : (finishAudit (auditStartSt st p) (auditDir st)).trace
      = st.trace ++ [Ev.auditCall p, Ev.mkdir (auditDir st), Ev.rmtree (auditDir st)] := by
    simp [finishAudit, cleanupDir, auditStartSt, logEv, List.append_assoc]
  refine ⟨by rw [h1], ?_, ?_, ?_⟩
  · rw [h1]
    show outsideFiles (auditDir st) ((auditStartSt st p).files) = st.files
    exact outsideFiles_tempDir st.files
  · rw [h1]
    exact h3
  · rw [h1]
    show countLlm (finishAudit (auditStartSt st p) (auditDir st)).trace = countLlm st.trace
    rw [h3]
    simp [countLlm, List.countP_append, List.countP_cons]

/-- Witness for c3_guard_unavailable at the concrete guard-off environment. -/
theorem c3_witness :
    (perform_full_audio_audit envU st0 pU).1
      = errRecord (basename pU)
          (.importError ("Core audio processing components are not available for a full audit.")) ∧
    ((perform_full_audio_audit envU st0 pU).2).files = st0.files ∧
    ((perform_full_audio_audit envU st0 pU).2).trace
      = st0.trace ++ [Ev.auditCall pU, Ev.mkdir (auditDir st0), Ev.rmtree (auditDir st0)] ∧
    countLlm ((perform_full_audio_audit envU st0 pU).2).trace = countLlm st0.trace :=
  c3_guard_unavailable envU st0 pU (Or.inl rfl)

/-- Counterexample for C3 as stated: with the guard off, the invocation still
touches the filesystem beyond checking guard state — the with-block creates
(and then removes) the scoped temporary directory before the guard is checked,
so the trace of filesystem events is not empty. -/
theorem c3_counterexample :
    (perform_full_audio_audit envU st0 pU).1
      = errRecord ("a.wav")
          (.importError ("Core audio processing components are not available for a full audit.")) ∧
    Ev.mkdir [("audio_audit_x")] ∈ ((perform_full_audio_audit envU st0 pU).2).trace ∧
    ((perform_full_audio_audit envU st0 pU).2).trace ≠ [] := by
  exact ⟨rfl, by decide, by decide⟩

end Audit

namespace Audit

/-- C4 (amended): for every run whose transcription stage succeeds with an empty
or whitespace-only transcript, perform_full_audio_audit short-circuits to the
non-FAILED record with empty transcription, the 未知 (unknown) sentiment marker,
compliance_issues = ["Empty transcription"] (capital E, as the code spells it),
and the no-analysis summary — and the LLM adapter is never invoked. -/
theorem c4_empty_transcript :
    ∀ (env : Env) (st : St) (p : FPath) (t : String) (st1 : St),
      transcribe_audio env (auditStartSt st p) p (auditDir st) = (.ok t, st1) →
      pyStrip t = "" →
      (perform_full_audio_audit env st p).1 = emptyTransRecord (basename p) ∧
      countLlm ((perform_full_audio_audit env st p).2).trace = countLlm st.trace := by
  intro env st p t st1 htr hs
  have hH : env.heavyOk = true := by
    by_contra hH
    have hH2 : env.heavyOk = false := by simpa using hH
    unfold transcribe_audio at htr
    rw [hH2] at htr
    simp at htr
  have hW : env.whisperInstance = true := by
    by_contra hW
    have hW2 : env.whisperInstance = false := by simpa using hW
    unfold transcribe_audio at htr
    rw [hH, hW2] at htr
    simp at htr
  have hg : (!env.heavyOk || !env.whisperInstance) = false := by simp [hH, hW]
  have hb : audit_body env (auditStartSt st p) p (auditDir st)
      = (.ok (emptyTransRecord (basename p)), st1) := by
    unfold audit_body
    rw [if_neg (by simp [hg]), htr]
    dsimp only
    rw [if_pos hs]
  have h1 : perform_full_audio_audit env st p
      = (emptyTransRecord (basename p), finishAudit st1 (auditDir st)) := by
    unfold perform_full_audio_audit
    rw [hb]
  constructor
  · rw [h1]
  · rw [h1]
    show countLlm (finishAudit st1 (auditDir st)).trace = countLlm st.trace
    have h2 : (finishAudit st1 (auditDir st)).trace = st1.trace ++ [Ev.rmtree (auditDir st)] := rfl
    rw [h2, countLlm_snoc _ _ rfl]
    have h3 : countLlm st1.trace = countLlm ((auditStartSt st p)).trace := by
      have h4 := (transcribe_keeps env (auditStartSt st p) p (auditDir st)).2
      rw [htr] at h4
      exact h4
    rw [h3]
    show countLlm ((st.trace ++ [Ev.auditCall p]) ++ [Ev.mkdir (auditDir st)]) = countLlm st.trace
    rw [countLlm_snoc _ _ rfl, countLlm_snoc _ _ rfl]

/-- Witness for c4_empty_transcript at the whitespace-transcript environment. -/
theorem c4_witness :
    (perform_full_audio_audit envW stD pD).1 = emptyTransRecord (basename pD) ∧
    countLlm ((perform_full_audio_audit envW stD pD).2).trace = countLlm stD.trace :=
  c4_empty_transcript envW stD pD (" ") stTrW rfl (by decide)

/-- Counterexample for C4 as stated: the single compliance entry the code
produces is "Empty transcription" (capital E), not the claimed
"empty transcription". -/
theorem c4_counterexample :
    (perform_full_audio_audit envW stD pD).1 = emptyTransRecord ("input.mp3") ∧
    dictGet ((perform_full_audio_audit envW stD pD).1) ("compliance_issues")
      = some (.list [.str ("Empty transcription")]) ∧
    ¬ dictGet ((perform_full_audio_audit envW stD pD).1) ("compliance_issues")
      = some (.list [.str ("empty transcription")]) := by
  refine ⟨rfl, rfl, ?_⟩
  intro h
  have h2 : some (PyVal.list [PyVal.str ("Empty transcription")])
      = some (PyVal.list [PyVal.str ("empty transcription")]) :=
    (show dictGet ((perform_full_audio_audit envW stD pD).1) ("compliance_issues")
        = some (PyVal.list [PyVal.str ("Empty transcription")]) from rfl).symm.trans h
  injection h2 with h3
  injection h3 with h4
  injection h4 with h5 h6
  injection h5 with h7
  exact absurd h7 (by decide)

/-- C5: analyze_text never lets an external-service failure escape: for every
transcript and every ollama.generate behaviour it returns either the parsed
JSON of a well-shaped response, or one of the three fallback records, each
carrying the failure description (exception text, format-error marker, or JSON
parse error with the truncated raw prefix). The adapter is a total function in
this model because every raise inside its try block is caught. -/
theorem c5_adapter_never_raises :
    ∀ (env : Env) (st : St) (text : String),
      (∃ resp s v, env.ollamaGen OLLAMA_MODEL_NAME (promptFor text) = .returns resp ∧
        pyIndexStr resp ("response") = .ok (.str s) ∧
        env.jsonLoads s = .ok v ∧
        (analyze_text env st text).1 = v) ∨
      (∃ m, (analyze_text env st text).1 = ollamaFailFallback m) ∨
      ((analyze_text env st text).1 = formatFallback text) ∨
      (∃ em s, env.jsonLoads s = .error em ∧
        (analyze_text env st text).1 = jsonFallback em (pySlice s 100)) := by
  intro env st text
  cases hg : env.ollamaGen OLLAMA_MODEL_NAME (promptFor text) with
  | raises m =>
    exact Or.inr (Or.inl ⟨m, by simp [analyze_text, hg]⟩)
  | returns response =>
    cases hc : pyContains response ("response") with
    | error e =>
      exact Or.inr (Or.inl ⟨excStr e, by simp [analyze_text, hg, hc]⟩)
    | ok b =>
      cases b with
      | false =>
        exact Or.inr (Or.inr (Or.inl (by simp [analyze_text, hg, hc])))
      | true =>
        cases hi : pyIndexStr response ("response") with
        | error e =>
          exact Or.inr (Or.inl ⟨excStr e, by simp [analyze_text, hg, hc, hi]⟩)
        | ok rv =>
          cases rv with
          | str s =>
            cases hj : env.jsonLoads s with
            | ok v =>
              exact Or.inl ⟨response, s, v, rfl, hi, hj, by simp [analyze_text, hg, hc, hi, hj]⟩
            | error em =>
              exact Or.inr (Or.inr (Or.inr ⟨em, s, hj, by simp [analyze_text, hg, hc, hi, hj]⟩))
          | num n => exact Or.inr (Or.inr (Or.inl (by simp [analyze_text, hg, hc, hi])))
          | bool b2 => exact Or.inr (Or.inr (Or.inl (by simp [analyze_text, hg, hc, hi])))
          | none => exact Or.inr (Or.inr (Or.inl (by simp [analyze_text, hg, hc, hi])))
          | list xs => exact Or.inr (Or.inr (Or.inl (by simp [analyze_text, hg, hc, hi])))
          | dict kvs => exact Or.inr (Or.inr (Or.inl (by simp [analyze_text, hg, hc, hi])))

/-- C6 (amended): on any LLM response string that is not valid JSON, analyze_text
returns the 未知 (unknown) sentiment marker, a non-empty compliance_issues list
describing the parse error, and a summary embedding exactly the at-most-100-
character prefix of the raw response; the bound holds, but a short raw response
is embedded whole (see the counterexample). -/
theorem c6_parse_error_bounded :
    ∀ (env : Env) (st : St) (text : String) (resp : PyVal) (s em : String),
      env.ollamaGen OLLAMA_MODEL_NAME (promptFor text) = .returns resp →
      pyContains resp ("response") = .ok true →
      pyIndexStr resp ("response") = .ok (.str s) →
      env.jsonLoads s = .error em →
      dictGet ((analyze_text env st text).1) ("sentiment") = some (.str ("未知")) ∧
      dictGet ((analyze_text env st text).1) ("compliance_issues")
        = some (.list [.str ("JSON parsing error: " ++ em)]) ∧
      dictGet ((analyze_text env st text).1) ("summary")
        = some (.str ("无法解析LLM输出。Raw: " ++ pySlice s 100 ++ "...")) ∧
      (pySlice s 100).length ≤ 100 := by
  intro env st text resp s em h1 h2 h3 h4
  have ha : (analyze_text env st text).1 = jsonFallback em (pySlice s 100) := by
    simp [analyze_text, h1, h2, h3, h4]
  refine ⟨by rw [ha]; rfl, by rw [ha]; rfl, by rw [ha]; rfl, ?_⟩
  exact s.data.length_take_le 100

/-- Witness for c6_parse_error_bounded at the invalid-JSON environment. -/
theorem c6_witness :
    dictGet ((analyze_text envJ st0 ("text")).1) ("sentiment") = some (.str ("未知")) ∧
    dictGet ((analyze_text envJ st0 ("text")).1) ("compliance_issues")
      = some (.list [.str ("JSON parsing error: " ++ "Expecting value: line 1 column 1 (char 0)")]) ∧
    dictGet ((analyze_text envJ st0 ("text")).1) ("summary")
      = some (.str ("无法解析LLM输出。Raw: " ++ pySlice ("hi") 100 ++ "...")) ∧
    (pySlice ("hi") 100).length ≤ 100 :=
  c6_parse_error_bounded envJ st0 ("text") (.dict [("response", .str ("hi"))]) ("hi")
    ("Expecting value: line 1 column 1 (char 0)") rfl rfl rfl rfl

/-- Counterexample for C6 as stated: for the two-character non-JSON response
"hi" the summary contains the full raw response, so "never the full raw
response" fails (the code embeds response[:100], which is the whole response
whenever it is at most 100 characters long). -/
theorem c6_counterexample :
    envJ.jsonLoads ("hi") = .error ("Expecting value: line 1 column 1 (char 0)") ∧
    dictGet ((analyze_text envJ st0 ("text")).1) ("summary")
      = some (.str ("无法解析LLM输出。Raw: hi...")) ∧
    strContains ("无法解析LLM输出。Raw: hi...") ("hi") = true := by
  exact ⟨rfl, rfl, by decide⟩

/-- C7 (amended): on parse failure of the LLM response, analyze_text returns the
fallback record with sentiment = 未知 (the unknown marker), a SINGLE-entry
compliance-issue list describing the parse error (not an empty list, which the
counterexample refutes), and the parse-failure summary embedding the first 100
characters of the offending raw text. -/
theorem c7_parse_fallback_record :
    ∀ (env : Env) (st : St) (text : String) (resp : PyVal) (s em : String),
      env.ollamaGen OLLAMA_MODEL_NAME (promptFor text) = .returns resp →
      pyContains resp ("response") = .ok true →
      pyIndexStr resp ("response") = .ok (.str s) →
      env.jsonLoads s = .error em →
      (analyze_text env st text).1 = jsonFallback em (pySlice s 100) ∧
      dictGet ((analyze_text env st text).1) ("sentiment") = some (.str ("未知")) ∧
      dictGet ((analyze_text env st text).1) ("compliance_issues")
        = some (.list [.str ("JSON parsing error: " ++ em)]) := by
  intro env st text resp s em h1 h2 h3 h4
  have ha : (analyze_text env st text).1 = jsonFallback em (pySlice s 100) := by
    simp [analyze_text, h1, h2, h3, h4]
  exact ⟨ha, by rw [ha]; rfl, by rw [ha]; rfl⟩

/-- Witness for c7_parse_fallback_record at the invalid-JSON environment. -/
theorem c7_witness :
    (analyze_text envJ st0 ("text")).1
      = jsonFallback ("Expecting value: line 1 column 1 (char 0)") (pySlice ("hi") 100) ∧
    dictGet ((analyze_text envJ st0 ("text")).1) ("sentiment") = some (.str ("未知")) ∧
    dictGet ((analyze_text envJ st0 ("text")).1) ("compliance_issues")
      = some (.list [.str ("JSON parsing error: " ++ "Expecting value: line 1 column 1 (char 0)")]) :=
  c7_parse_fallback_record envJ st0 ("text") (.dict [("response", .str ("hi"))]) ("hi")
    ("Expecting value: line 1 column 1 (char 0)") rfl rfl rfl rfl

/-- Counterexample for C7 as stated: on parse failure the compliance-issue list
is NOT empty — it carries the single JSON-parsing-error entry. -/
theorem c7_counterexample :
    dictGet ((analyze_text envJ st0 ("text")).1) ("compliance_issues")
      = some (.list [.str ("JSON parsing error: Expecting value: line 1 column 1 (char 0)")]) ∧
    ¬ dictGet ((analyze_text envJ st0 ("text")).1) ("compliance_issues")
      = some (.list []) := by
  refine ⟨rfl, ?_⟩
  intro h
  have h2 : some (PyVal.list [PyVal.str ("JSON parsing error: Expecting value: line 1 column 1 (char 0)")])
      = some (PyVal.list ([] : List PyVal)) :=
    (show dictGet ((analyze_text envJ st0 ("text")).1) ("compliance_issues")
        = some (PyVal.list [PyVal.str ("JSON parsing error: Expecting value: line 1 column 1 (char 0)")]) from rfl).symm.trans h
  injection h2 with h3
  injection h3 with h4
  exact List.noConfusion h4

/-- C8 (amended): on every fallback path analyze_text returns a mapping with
exactly the closed key set sentiment / compliance_issues / summary, sentiment
drawn from the enumerated marker set, compliance_issues a list of strings and
summary a string; but on a successful parse it returns whatever JSON value the
response parsed to, unvalidated — so the closed-shape guarantee does not hold
for arbitrary valid-JSON responses (see the counterexample). -/
theorem c8_result_shape :
    ∀ (env : Env) (st : St) (text : String),
      (∃ resp s v, env.ollamaGen OLLAMA_MODEL_NAME (promptFor text) = .returns resp ∧
        pyIndexStr resp ("response") = .ok (.str s) ∧
        env.jsonLoads s = .ok v ∧
        (analyze_text env st text).1 = v) ∨
      wellFormedAnalysis ((analyze_text env st text).1) = true := by
  intro env st text
  cases hg : env.ollamaGen OLLAMA_MODEL_NAME (promptFor text) with
  | raises m =>
    refine Or.inr ?_
    have h1 : (analyze_text env st text).1 = ollamaFailFallback m := by simp [analyze_text, hg]
    rw [h1]
    rfl
  | returns response =>
    cases hc : pyContains response ("response") with
    | error e =>
      refine Or.inr ?_
      have h1 : (analyze_text env st text).1 = ollamaFailFallback (excStr e) := by
        simp [analyze_text, hg, hc]
      rw [h1]
      rfl
    | ok b =>
      cases b with
      | false =>
        refine Or.inr ?_
        have h1 : (analyze_text env st text).1 = formatFallback text := by
          simp [analyze_text, hg, hc]
        rw [h1]
        rfl
      | true =>
        cases hi : pyIndexStr response ("response") with
        | error e =>
          refine Or.inr ?_
          have h1 : (analyze_text env st text).1 = ollamaFailFallback (excStr e) := by
            simp [analyze_text, hg, hc, hi]
          rw [h1]
          rfl
        | ok rv =>
          cases rv with
          | str s =>
            cases hj : env.jsonLoads s with
            | ok v =>
              exact Or.inl ⟨response, s, v, rfl, hi, hj, by simp [analyze_text, hg, hc, hi, hj]⟩
            | error em =>
              refine Or.inr ?_
              have h1 : (analyze_text env st text).1 = jsonFallback em (pySlice s 100) := by
                simp [analyze_text, hg, hc, hi, hj]
              rw [h1]
              rfl
          | num n =>
            refine Or.inr ?_
            have h1 : (analyze_text env st text).1 = formatFallback text := by
              simp [analyze_text, hg, hc, hi]
            rw [h1]
            rfl
          | bool b2 =>
            refine Or.inr ?_
            have h1 : (analyze_text env st text).1 = formatFallback text := by
              simp [analyze_text, hg, hc, hi]
            rw [h1]
            rfl
          | none =>
            refine Or.inr ?_
            have h1 : (analyze_text env st text).1 = formatFallback text := by
              simp [analyze_text, hg, hc, hi]
            rw [h1]
            rfl
          | list xs =>
            refine Or.inr ?_
            have h1 : (analyze_text env st text).1 = formatFallback text := by
              simp [analyze_text, hg, hc, hi]
            rw [h1]
            rfl
          | dict kvs =>
            refine Or.inr ?_
            have h1 : (analyze_text env st text).1 = formatFallback text := by
              simp [analyze_text, hg, hc, hi]
            rw [h1]
            rfl

/-- Counterexample for C8 as stated: a response parsing to the bare JSON
number 42 is returned as-is — not a mapping with the recognized keys. -/
theorem c8_counterexample :
    (analyze_text envN st0 ("text")).1 = .num 42 ∧
    wellFormedAnalysis ((analyze_text envN st0 ("text")).1) = false := by
  exact ⟨rfl, rfl⟩

end Audit

namespace Audit

/-- The walk skips every entry whose extension is not in the allow-list. -/
theorem zipWalk_no_match (env : Env) (st : St) (entries : List FPath)
    (h : ∀ p ∈ entries,
      SUPPORTED_AUDIO_EXTENSIONS.contains (pyLower (splitext (basename p)).2) = false) :
    zipWalk env st entries = ([], st) := by
  induction entries with
  | nil => rfl
  | cons p rest ih =>
    have hp := h p (List.mem_cons_self p rest)
    have hrest : ∀ q ∈ rest,
        SUPPORTED_AUDIO_EXTENSIONS.contains (pyLower (splitext (basename q)).2) = false :=
      fun q hq => h q (List.mem_cons_of_mem p hq)
    unfold zipWalk
    dsimp only
    rw [hp, if_neg (by simp)]
    exact ih hrest

/-- C9: for an uploaded ZIP none of whose extracted entries carries an extension
in the fixed allow-list {.wav, .mp3, .m4a, .flac, .ogg, .aac}, the batch walk
returns processed_files = [] and errors containing exactly the one
no-supported-audio-files message, and the audit capability is never invoked
(the state — including the audit-invocation trace — is untouched). -/
theorem c9_no_supported_audio :
    ∀ (env : Env) (st : St) (entries : List FPath),
      (∀ p ∈ entries,
        SUPPORTED_AUDIO_EXTENSIONS.contains (pyLower (splitext (basename p)).2) = false) →
      upload_zip_results env st entries
        = (("ZIP file processed with errors.", [],
            ["No supported audio files found in the ZIP archive."]), st) ∧
      countAudit ((upload_zip_results env st entries).2).trace = countAudit st.trace := by
  intro env st entries h
  have hw := zipWalk_no_match env st entries h
  have h1 : upload_zip_results env st entries
      = (("ZIP file processed with errors.", [],
          ["No supported audio files found in the ZIP archive."]), st) := by
    unfold upload_zip_results
    rw [hw]
    rfl
  exact ⟨h1, by rw [h1]⟩

/-- Witness for c9_no_supported_audio on a ZIP holding readme.txt and doc.pdf. -/
theorem c9_witness :
    upload_zip_results envD st0 entries0
      = (("ZIP file processed with errors.", [],
          ["No supported audio files found in the ZIP archive."]), st0) ∧
    countAudit ((upload_zip_results envD st0 entries0).2).trace = countAudit st0.trace :=
  c9_no_supported_audio envD st0 entries0 (by decide)

/-- C10: for every input path and every behaviour of the processing stages, the
dict returned by perform_full_audio_audit carries audio_file = the base name of
the input — the merge overwrites any conflicting audio_file key the LLM analysis
supplied, a non-dict analysis value raises TypeError into the FAILED record, and
every failure record carries the base name too; and every failure-path dict
pairs a non-empty error string with status "FAILED". -/
theorem c10_record_invariants :
    ∀ (env : Env) (st : St) (p : FPath),
      dictGet ((perform_full_audio_audit env st p).1) ("audio_file")
        = some (.str (basename p)) ∧
      (∀ (e : PyExc) (st2 : St),
        audit_body env (auditStartSt st p) p (auditDir st) = (.error e, st2) →
        dictGet ((perform_full_audio_audit env st p).1) ("status") = some (.str ("FAILED")) ∧
        dictGet ((perform_full_audio_audit env st p).1) ("error") = some (.str (errString e)) ∧
        errString e ≠ "") := by
  intro env st p
  constructor
  · cases hb : audit_body env (auditStartSt st p) p (auditDir st) with
    | mk r st2 =>
      cases r with
      | ok v =>
        have h1 : (perform_full_audio_audit env st p).1 = v := by
          unfold perform_full_audio_audit
          rw [hb]
        rw [h1]
        exact body_ok_audio_file env (auditStartSt st p) p (auditDir st) v st2 hb
      | error e =>
        have h1 : (perform_full_audio_audit env st p).1 = errRecord (basename p) e := by
          unfold perform_full_audio_audit
          rw [hb]
        rw [h1]
        rfl
  · intro e st2 hb
    have hp : (perform_full_audio_audit env st p).1 = errRecord (basename p) e := by
      unfold perform_full_audio_audit
      rw [hb]
    refine ⟨by rw [hp]; rfl, by rw [hp]; rfl, ?_⟩
    cases e with
    | fileNotFound m => exact (by decide : ("Input audio file not found." : String) ≠ "")
    | valueError m => exact strAppend_ne_empty ("Processing error: ") m (by decide)
    | jsonDecode m => exact strAppend_ne_empty ("Processing error: ") m (by decide)
    | calledProcess so m => exact strAppend_ne_empty ("Audio conversion failed: ") _ (by decide)
    | importError m => exact strAppend_ne_empty ("Import error during processing: ") m (by decide)
    | other m => exact strAppend_ne_empty ("An unexpected error occurred: ") m (by decide)

/-- Witness for c10_record_invariants at the guard-unavailable run. -/
theorem c10_witness :
    dictGet ((perform_full_audio_audit envU st0 pU).1) ("audio_file")
      = some (.str (basename pU)) ∧
    dictGet ((perform_full_audio_audit envU st0 pU).1) ("status") = some (.str ("FAILED")) :=
  ⟨(c10_record_invariants envU st0 pU).1,
   ((c10_record_invariants envU st0 pU).2
     (.importError ("Core audio processing components are not available for a full audit."))
     (auditStartSt st0 pU) rfl).1⟩

end Audit
